import Mathlib

/-!
Verification development for the eBayPhotoBackup repository.

This file shallowly embeds the parts of the repository that the checked
properties talk about:

* `ebay_auth.py` — token freshness bookkeeping and the token supplier
  `ensure_access_token` (with `refresh_access_token`);
* `month_windows` — the calendar-month window planner shared by
  `ebay_all_listings_by_sku.py`, `ebay_all_listings_auto_refresh.py` and
  `eBay_image_backup.py`;
* the per-item processing step of `process_window` and of the initial scan
  `get_all_items` in `ebay_all_listings_by_sku.py` (ledger rows, seen-set,
  download targets);
* the two `trading_call` variants (auto-refresh engine and by-sku engine)
  with their auth-retry behaviour;
* `download_image` and the caller-side existence guard (idempotent fetch).

External effects (HTTP requests, the clock, files on disk) are modelled by
explicit oracle parameters and by explicit state records, so every
definition is executable.
-/

/-! ### Token lifecycle (`ebay_auth.py`) -/

/-- The world visible to `ebay_auth.py`: the cached access-token file, the
`access_meta.json` contents `(created_at, expires_in)` (`none` when the file
is missing or unreadable), the refresh-token file, the current clock, and the
outcome the token endpoint would give to a refresh request
(`some (access_token, expires_in)` on success, `none` when the HTTP call
fails). -/
structure AuthWorld where
  accessFile : Option String
  metaFile : Option (Int × Int)
  refreshFile : Option String
  now : Int
  refreshResult : Option (String × Int)
deriving DecidableEq, Repr

/-- `_is_access_token_fresh(leeway_seconds=60)`: reads `access_meta.json` and
returns `(time.time() + leeway) < (created_at + expires_in)`; any failure to
read the metadata yields `False`. -/
def is_access_token_fresh (leeway : Int) (w : AuthWorld) : Bool :=
  match w.metaFile with
  | none => false
  | some (created, ttl) => decide (w.now + leeway < created + ttl)

/-- `refresh_access_token()`: fails when `refresh_token.txt` is missing;
otherwise performs the token-endpoint POST (outcome `w.refreshResult`), and on
success writes the new access token and fresh metadata
`(created_at := now, expires_in := ttl)`.  (Refresh-token rotation does not
affect any checked property and is not modelled.) -/
def refresh_access_token (w : AuthWorld) : Except String (String × AuthWorld) :=
  match w.refreshFile with
  | none => .error "Missing file: refresh_token.txt"
  | some _ =>
    match w.refreshResult with
    | none => .error "refresh request rejected"
    | some (tok, ttl) =>
      .ok (tok, { w with accessFile := some tok, metaFile := some (w.now, ttl) })

/-- `ensure_access_token()`: return the cached token when the access file
exists and is fresh (leeway 60 s); otherwise, when `refresh_token.txt` exists,
perform one refresh network call and return its access token; otherwise raise.
The second component counts refresh network calls made. -/
def ensure_access_token (w : AuthWorld) : Except String (String × AuthWorld) × Nat :=
  match w.accessFile with
  | some tok =>
    if is_access_token_fresh 60 w then (.ok (tok, w), 0)
    else
      match w.refreshFile with
      | some _ => (refresh_access_token w, 1)
      | none => (.error "No fresh access token available and refresh_token.txt is missing", 0)
  | none =>
    match w.refreshFile with
    | some _ => (refresh_access_token w, 1)
    | none => (.error "No fresh access token available and refresh_token.txt is missing", 0)

/-- A fresh cached access token exists. -/
def freshCached (w : AuthWorld) : Prop :=
  w.accessFile.isSome = true ∧ is_access_token_fresh 60 w = true

instance (w : AuthWorld) : Decidable (freshCached w) := by
  unfold freshCached; infer_instance

/-- C5: a stored token is considered fresh only if
`now + leeway < created_at + expires_in` with leeway 60 s (≥ 60); and when the
stored metadata says `created_at + expires_in < now` (hard-expired) and a
refresh path exists with a working token endpoint, `ensure_access_token`
performs exactly one refresh call and returns the refreshed token, not the
cached one. -/
theorem c5_token_freshness_and_refresh_on_expiry
    (w : AuthWorld) (created ttl : Int) (tok : String) (newTtl : Int) :
    (is_access_token_fresh 60 w = true →
      ∃ c t, w.metaFile = some (c, t) ∧ w.now + 60 < c + t) ∧
    (w.metaFile = some (created, ttl) → created + ttl < w.now →
      w.refreshFile.isSome = true → w.refreshResult = some (tok, newTtl) →
      ensure_access_token w =
        (.ok (tok, { w with accessFile := some tok, metaFile := some (w.now, newTtl) }), 1)) := by
  constructor
  · intro h
    unfold is_access_token_fresh at h
    match hm : w.metaFile with
    | none => rw [hm] at h; simp at h
    | some (c, t) =>
      rw [hm] at h
      simp only [decide_eq_true_eq] at h
      exact ⟨c, t, rfl, h⟩
  · intro hmeta hexp hrf hres
    have hnotfresh : is_access_token_fresh 60 w = false := by
      unfold is_access_token_fresh
      rw [hmeta]
      simp only [decide_eq_false_iff_not]
      omega
    match hrfile : w.refreshFile with
    | none => rw [hrfile] at hrf; simp at hrf
    | some rt =>
      unfold ensure_access_token
      match haf : w.accessFile with
      | some t0 =>
        rw [hnotfresh, hrfile]
        simp only [Bool.false_eq_true, if_false]
        unfold refresh_access_token
        rw [hrfile, hres]
      | none =>
        rw [hrfile]
        unfold refresh_access_token
        rw [hrfile, hres]

/-- Witness for C5 at a concrete world: metadata `(0, 100)` at time `1000`
(hard-expired), refresh available and succeeding with token `"B"`. -/
theorem c5_token_freshness_and_refresh_on_expiry_witness :
    ensure_access_token ⟨some "A", some (0, 100), some "rt", 1000, some ("B", 7200)⟩ =
      (.ok ("B", ⟨some "B", some (1000, 7200), some "rt", 1000, some ("B", 7200)⟩), 1) := by
  have h := (c5_token_freshness_and_refresh_on_expiry
    ⟨some "A", some (0, 100), some "rt", 1000, some ("B", 7200)⟩ 0 100 "B" 7200).2
    rfl (by norm_num) rfl rfl
  exact h

/-- C9 counterexample: a world with a stale cached token, a present refresh
token (so a refresh path exists), but a failing token endpoint.  The claim
says `ensure_access_token` then returns a token without raising; in fact it
raises even though a refresh path exists. -/
theorem c9_counterexample_refresh_path_but_failure :
    (AuthWorld.refreshFile ⟨some "A", some (0, 100), some "rt", 1000, none⟩).isSome = true ∧
    (ensure_access_token ⟨some "A", some (0, 100), some "rt", 1000, none⟩).1 =
      .error "refresh request rejected" := by
  constructor
  · rfl
  · rfl

/-- C9 (amended): `ensure_access_token` fails exactly when there is no fresh
cached access token and, in addition, either the refresh-token file is absent
or the refresh request itself fails; when a fresh cached token exists, or a
refresh path exists and the refresh succeeds, it returns a token without
raising. -/
theorem c9_credential_error_exactly_when_no_path
    (w : AuthWorld) :
    (∃ e, (ensure_access_token w).1 = .error e) ↔
      (¬ freshCached w ∧ (w.refreshFile = none ∨ w.refreshResult = none)) := by
  unfold ensure_access_token refresh_access_token freshCached
  match haf : w.accessFile with
  | some tok =>
    by_cases hf : is_access_token_fresh 60 w
    · simp [hf]
    · match hrfile : w.refreshFile with
      | none => simp [hf, hrfile]
      | some rt =>
        match hres : w.refreshResult with
        | none => simp [hf, hrfile, hres]
        | some (t, ttl) => simp [hf, hrfile, hres]
  | none =>
    match hrfile : w.refreshFile with
    | none => simp
    | some rt =>
      match hres : w.refreshResult with
      | none => simp [hrfile, hres]
      | some (t, ttl) => simp [hrfile, hres]

/-- Witness for C9 at a concrete world with no cached token and no refresh
file: the supplier raises. -/
theorem c9_credential_error_exactly_when_no_path_witness :
    ∃ e, (ensure_access_token ⟨none, none, none, 0, none⟩).1 = .error e :=
  (c9_credential_error_exactly_when_no_path ⟨none, none, none, 0, none⟩).mpr
    ⟨by decide, Or.inl rfl⟩

/-! ### Window planner (`month_windows`)

`month_windows(start_date_str, end_date_str)` parses both strings with
`"%Y-%m-%d"` (so both are midnight datetimes), sets
`cur = datetime(start.year, start.month, 1)`, and while `cur <= end` yields
`(cur, cur + relativedelta(months=1) - timedelta(seconds=1))`, then moves
`cur` to the next month.  A month is identified by its index
`12 * year + (month - 1)`; `cur` always sits at day 1, 00:00:00 of the month
with the current index, and the yielded window end is the last day of that
month at 23:59:59.  The loop guard `cur <= end` is datetime-lexicographic;
`windowStart_le_iff` below proves it equivalent to the index comparison used
to compute the iteration count. -/

structure Date where
  year : Nat
  month : Nat
  day : Nat
deriving DecidableEq, Repr

structure DateTime where
  date : Date
  hour : Nat
  minute : Nat
  second : Nat
deriving DecidableEq, Repr

/-- Python `calendar` leap-year rule used implicitly by `relativedelta`. -/
def isLeap (y : Nat) : Bool :=
  (y % 4 == 0 && y % 100 != 0) || y % 400 == 0

/-- Number of days in month `m` of year `y` (months numbered 1–12). -/
def daysInMonth (y m : Nat) : Nat :=
  if m = 2 then (if isLeap y then 29 else 28)
  else if m = 4 ∨ m = 6 ∨ m = 9 ∨ m = 11 then 30
  else 31

/-- Linear index of the calendar month `(y, m)`. -/
def monthIdxYM (y m : Nat) : Nat := 12 * y + (m - 1)

/-- Linear index of a date's calendar month. -/
def monthIdx (d : Date) : Nat := monthIdxYM d.year d.month

/-- Lexicographic date comparison (as Python compares `datetime` dates). -/
def Date.leb (a b : Date) : Bool :=
  if a.year = b.year then
    (if a.month = b.month then decide (a.day ≤ b.day) else decide (a.month < b.month))
  else decide (a.year < b.year)

/-- Lexicographic datetime comparison (Python `datetime.__le__`). -/
def DateTime.leb (a b : DateTime) : Bool :=
  if a.date = b.date then
    (if a.hour = b.hour then
      (if a.minute = b.minute then decide (a.second ≤ b.second)
       else decide (a.minute < b.minute))
     else decide (a.hour < b.hour))
  else Date.leb a.date b.date

/-- The window the loop yields for the month with linear index `idx`:
`cur` (day 1, midnight) and `cur + relativedelta(months=1) -
timedelta(seconds=1)` (last day of the month, 23:59:59). -/
def windowOfIdx (idx : Nat) : DateTime × DateTime :=
  (⟨⟨idx / 12, idx % 12 + 1, 1⟩, 0, 0, 0⟩,
   ⟨⟨idx / 12, idx % 12 + 1, daysInMonth (idx / 12) (idx % 12 + 1)⟩, 23, 59, 59⟩)

/-- The window loop, one iteration per remaining month. -/
def month_windows_go : Nat → Nat → List (DateTime × DateTime)
  | _, 0 => []
  | curIdx, n + 1 => windowOfIdx curIdx :: month_windows_go (curIdx + 1) n

/-- `month_windows`: iterate from the first day of `start`'s month while
`cur <= end`; the iteration count `monthIdx end + 1 - monthIdxYM start.year
start.month` is exactly the number of month indices `i` with
`i ≤ monthIdx end`, starting at `start`'s month (see `windowStart_le_iff`). -/
def month_windows (start stop : Date) : List (DateTime × DateTime) :=
  month_windows_go (monthIdxYM start.year start.month)
    (monthIdx stop + 1 - monthIdxYM start.year start.month)

/-- A window contains a date (at day granularity: the lower bound is at
00:00:00 and the upper bound at 23:59:59, so a date is inside the window iff
it is between the two bound dates). -/
def windowContainsDate (w : DateTime × DateTime) (d : Date) : Prop :=
  Date.leb w.1.date d = true ∧ Date.leb d w.2.date = true

instance (w : DateTime × DateTime) (d : Date) : Decidable (windowContainsDate w d) := by
  unfold windowContainsDate; infer_instance

/-- A date that actually exists on the calendar. -/
def Date.valid (d : Date) : Prop :=
  1 ≤ d.month ∧ d.month ≤ 12 ∧ 1 ≤ d.day ∧ d.day ≤ daysInMonth d.year d.month

instance (d : Date) : Decidable d.valid := by
  unfold Date.valid; infer_instance

/-- The loop guard `cur <= end` (datetime order, `cur` the month start of
index `i`, `end` a parsed midnight date) is the index comparison
`i ≤ monthIdx end`, for any end date with month 1–12 and day ≥ 1. -/
theorem windowStart_le_iff (i : Nat) (e : Date)
    (hm1 : 1 ≤ e.month) (hm2 : e.month ≤ 12) (hd : 1 ≤ e.day) :
    (DateTime.leb (windowOfIdx i).1 ⟨e, 0, 0, 0⟩ = true) ↔ i ≤ monthIdx e := by
  obtain ⟨ey, em, ed⟩ := e
  simp only [windowOfIdx, DateTime.leb, Date.leb, monthIdx, monthIdxYM] at *
  split_ifs with h1 h2 h3 <;>
    simp_all [Date.mk.injEq] <;> omega

/-- Closed form of the window loop. -/
theorem month_windows_go_eq (c n : Nat) :
    month_windows_go c n = (List.range n).map (fun k => windowOfIdx (c + k)) := by
  induction n generalizing c with
  | zero => rfl
  | succ n ih =>
    rw [month_windows_go, ih, List.range_succ_eq_map]
    simp only [List.map_cons, List.map_map, Nat.add_zero, List.cons.injEq, true_and]
    apply List.map_congr_left
    intro k _
    simp only [Function.comp_apply]
    congr 1
    omega

/-- Month-index roundtrip for a real month number. -/
theorem monthIdxYM_div_mod (y m : Nat) (h1 : 1 ≤ m) (h2 : m ≤ 12) :
    monthIdxYM y m / 12 = y ∧ monthIdxYM y m % 12 + 1 = m := by
  unfold monthIdxYM
  omega

/-- The start month index of the window of index `i` is `i` itself. -/
theorem monthIdx_windowOfIdx (i : Nat) : monthIdx (windowOfIdx i).1.date = i := by
  simp only [windowOfIdx, monthIdx, monthIdxYM]
  omega

/-- `Date.leb` is monotone for the month index (left month must be ≤ 12). -/
theorem monthIdx_le_of_leb (a b : Date) (h12 : a.month ≤ 12)
    (h : Date.leb a b = true) : monthIdx a ≤ monthIdx b := by
  obtain ⟨ay, am, ad⟩ := a
  obtain ⟨by', bm, bd⟩ := b
  simp only [Date.leb, monthIdx, monthIdxYM] at *
  split_ifs at h <;> simp_all <;> omega

/-- A date contained in the window of index `i` lies in exactly that month. -/
theorem windowContainsDate_monthIdx (i : Nat) (d : Date)
    (h : windowContainsDate (windowOfIdx i) d) : monthIdx d = i := by
  obtain ⟨dy, dm, dd⟩ := d
  obtain ⟨hlo, hhi⟩ := h
  simp only [windowOfIdx, windowContainsDate, Date.leb, monthIdx, monthIdxYM] at *
  split_ifs at hlo hhi <;> simp_all [Date.mk.injEq] <;> omega

/-- `month_windows` in closed form. -/
theorem month_windows_eq (s e : Date) :
    month_windows s e =
      (List.range (monthIdx e + 1 - monthIdxYM s.year s.month)).map
        (fun k => windowOfIdx (monthIdxYM s.year s.month + k)) :=
  month_windows_go_eq _ _

/-- Number of windows produced. -/
theorem month_windows_length (s e : Date) :
    (month_windows s e).length = monthIdx e + 1 - monthIdxYM s.year s.month := by
  rw [month_windows_eq]; simp

/-- Any valid date's month window contains it. -/
theorem windowOfIdx_contains_self (d : Date) (hv : d.valid) :
    windowContainsDate (windowOfIdx (monthIdx d)) d := by
  obtain ⟨y, m, dd⟩ := d
  obtain ⟨h1, h2, h3, h4⟩ := hv
  have hdm := monthIdxYM_div_mod y m h1 h2
  simp only [windowContainsDate, windowOfIdx, monthIdx, Date.leb]
  simp only [hdm.1, hdm.2]
  simp_all

/-- C2 counterexample: on the spec's own input pair
`("2024-01-15", "2024-03-10")` the planner yields Jan, Feb and *the whole of
March*: the last window ends at 2024-03-31 23:59:59, not at the requested end
date 2024-03-10 — the last window is not clipped at `endDate`. -/
theorem c2_counterexample_last_window_not_clipped :
    month_windows ⟨2024, 1, 15⟩ ⟨2024, 3, 10⟩ =
      [(⟨⟨2024, 1, 1⟩, 0, 0, 0⟩, ⟨⟨2024, 1, 31⟩, 23, 59, 59⟩),
       (⟨⟨2024, 2, 1⟩, 0, 0, 0⟩, ⟨⟨2024, 2, 29⟩, 23, 59, 59⟩),
       (⟨⟨2024, 3, 1⟩, 0, 0, 0⟩, ⟨⟨2024, 3, 31⟩, 23, 59, 59⟩)] ∧
    (month_windows ⟨2024, 1, 15⟩ ⟨2024, 3, 10⟩).getLast? ≠
      some (⟨⟨2024, 3, 1⟩, 0, 0, 0⟩, ⟨⟨2024, 3, 10⟩, 23, 59, 59⟩) := by
  decide

/-- C2 (amended): for `start ≤ end` (valid dates) the planner yields one
window per calendar month, with consecutive month indices from `start`'s
month through `end`'s month (no gaps, no overlaps at month granularity);
every valid date in `[start, end]` is contained in a produced window, and no
date lies in two distinct windows.  The last window extends to the last
second of `end`'s month rather than being clipped at `end`. -/
theorem c2_window_coverage_month_aligned
    (s e : Date) (hs : s.valid) (he : e.valid) (hle : Date.leb s e = true) :
    ((month_windows s e).map (fun w => monthIdx w.1.date) =
      List.range' (monthIdxYM s.year s.month)
        (monthIdx e + 1 - monthIdxYM s.year s.month)) ∧
    (∀ d : Date, d.valid → Date.leb s d = true → Date.leb d e = true →
      windowOfIdx (monthIdx d) ∈ month_windows s e ∧
      windowContainsDate (windowOfIdx (monthIdx d)) d) ∧
    (∀ w w' (d : Date), w ∈ month_windows s e → w' ∈ month_windows s e →
      windowContainsDate w d → windowContainsDate w' d → w = w') := by
  refine ⟨?_, ?_, ?_⟩
  · rw [month_windows_eq, List.map_map, List.range'_eq_map_range]
    apply List.map_congr_left
    intro k _
    simp [monthIdx_windowOfIdx]
  · intro d hd hsd hde
    have h1 : monthIdxYM s.year s.month ≤ monthIdx d := by
      have := monthIdx_le_of_leb s d hs.2.1 hsd
      simpa [monthIdx] using this
    have h2 : monthIdx d ≤ monthIdx e := monthIdx_le_of_leb d e hd.2.1 hde
    refine ⟨?_, windowOfIdx_contains_self d hd⟩
    rw [month_windows_eq]
    refine List.mem_map.mpr ⟨monthIdx d - monthIdxYM s.year s.month, ?_, ?_⟩
    · exact List.mem_range.mpr (by omega)
    · congr 1
      omega
  · intro w w' d hw hw' hc hc'
    rw [month_windows_eq] at hw hw'
    obtain ⟨k, _, hk⟩ := List.mem_map.mp hw
    obtain ⟨k', _, hk'⟩ := List.mem_map.mp hw'
    subst hk hk'
    have e1 := windowContainsDate_monthIdx _ _ hc
    have e2 := windowContainsDate_monthIdx _ _ hc'
    rw [e1] at e2
    rw [e2]

/-- Witness for C2 (amended) at `start = 2024-01-15`, `end = 2024-03-10`,
checking the coverage clause at the concrete date 2024-02-05. -/
theorem c2_window_coverage_month_aligned_witness :
    windowOfIdx (monthIdx ⟨2024, 2, 5⟩) ∈
      month_windows ⟨2024, 1, 15⟩ ⟨2024, 3, 10⟩ ∧
    windowContainsDate (windowOfIdx (monthIdx ⟨2024, 2, 5⟩)) ⟨2024, 2, 5⟩ :=
  (c2_window_coverage_month_aligned ⟨2024, 1, 15⟩ ⟨2024, 3, 10⟩
    (by decide) (by decide) (by decide)).2.1 ⟨2024, 2, 5⟩
    (by decide) (by decide) (by decide)

/-- C8 counterexample: `start = 2024-03-10` is strictly after
`end = 2024-03-01`, yet the planner yields one window (March 2024), not the
empty sequence: the loop starts at the first day of `start`'s month, which is
still ≤ `end`. -/
theorem c8_counterexample_start_after_end_same_month :
    Date.leb ⟨2024, 3, 10⟩ ⟨2024, 3, 1⟩ = false ∧
    month_windows ⟨2024, 3, 10⟩ ⟨2024, 3, 1⟩ =
      [(⟨⟨2024, 3, 1⟩, 0, 0, 0⟩, ⟨⟨2024, 3, 31⟩, 23, 59, 59⟩)] := by
  decide

/-- C8 (amended): a `startDate` not on a month boundary still yields a first
window beginning on the first day of its month; `startDate = endDate` yields
exactly one window; the output is empty exactly when `endDate`'s month
precedes `startDate`'s month — a `startDate` after `endDate` inside the same
calendar month still yields that month's single window. -/
theorem c8_window_planner_edge_cases :
    (∀ s e : Date, s.valid → month_windows s e ≠ [] →
      (month_windows s e).head? =
        some (⟨⟨s.year, s.month, 1⟩, 0, 0, 0⟩,
          ⟨⟨s.year, s.month, daysInMonth s.year s.month⟩, 23, 59, 59⟩)) ∧
    (∀ s : Date, (month_windows s s).length = 1) ∧
    (∀ s e : Date, month_windows s e = [] ↔ monthIdx e < monthIdxYM s.year s.month) ∧
    (∀ s e : Date, s.year = e.year → s.month = e.month →
      (month_windows s e).length = 1) := by
  refine ⟨?_, ?_, ?_, ?_⟩
  · intro s e hs hne
    have hdm := monthIdxYM_div_mod s.year s.month hs.1 hs.2.1
    unfold month_windows at *
    cases hn : monthIdx e + 1 - monthIdxYM s.year s.month with
    | zero => rw [hn] at hne; exact absurd rfl hne
    | succ n =>
      simp only [month_windows_go, List.head?_cons, Option.some.injEq]
      simp only [windowOfIdx, hdm.1, hdm.2]
  · intro s
    rw [month_windows_length]
    simp only [monthIdx]
    omega
  · intro s e
    rw [month_windows_eq]
    simp only [List.map_eq_nil_iff, List.range_eq_nil]
    omega
  · intro s e hy hm
    rw [month_windows_length, monthIdx, hy, hm]
    omega

/-- Witness for C8 (amended): `start = end = 2024-05-07` (a single window),
and an empty output for `start = 2024-03-10`, `end = 2023-01-01`. -/
theorem c8_window_planner_edge_cases_witness :
    (month_windows ⟨2024, 5, 7⟩ ⟨2024, 5, 7⟩).length = 1 ∧
    month_windows ⟨2024, 3, 10⟩ ⟨2023, 1, 1⟩ = [] :=
  ⟨c8_window_planner_edge_cases.2.1 ⟨2024, 5, 7⟩,
   (c8_window_planner_edge_cases.2.2.1 ⟨2024, 3, 10⟩ ⟨2023, 1, 1⟩).mpr (by decide)⟩

/-! ### Items and the per-item crawl step (`ebay_all_listings_by_sku.py`)

`iter_items` yields `(ItemID, SKU, uniq)` where `uniq` is the list of
`PictureURL` texts (non-empty only) followed by the `GalleryURL` when
non-empty, de-duplicated preserving insertion order.  `process_window`'s loop
body consumes such triples, maintaining the `seen_ids` set, the
`counters["items"]` tally, the CSV batch rows, and per-URL download
destinations.  `get_all_items` (the initial scan) has its own inlined item
handling: it skips *any* already-seen id and collects URLs without the
de-duplication step. -/

structure ListingItem where
  item_id : String
  sku : String
  pics : List String
  gal : String
deriving DecidableEq, Repr

/-- URL collection common to `iter_items` and `get_all_items`:
`urls = [u.text for u in PictureURL if u.text]`, then the `GalleryURL`
appended when non-empty. -/
def collect_urls (it : ListingItem) : List String :=
  it.pics.filter (fun u => u ≠ "") ++ (if it.gal ≠ "" then [it.gal] else [])

/-- The de-dup loop of `iter_items`: `if u and u not in seen` keeps the first
occurrence of each non-empty URL, in order. -/
def dedup_go : List String → List String → List String
  | _, [] => []
  | acc, u :: rest =>
    if u ≠ "" ∧ u ∉ acc then u :: dedup_go (u :: acc) rest
    else dedup_go acc rest

def dedup (urls : List String) : List String := dedup_go [] urls

/-- The URL list `iter_items` yields for one item. -/
def iter_item_urls (it : ListingItem) : List String := dedup (collect_urls it)

/-- Python `str.strip()` whitespace test, at the character level. -/
def isSpaceChar (c : Char) : Bool :=
  c = ' ' ∨ c = '\t' ∨ c = '\n' ∨ c = '\r'

/-- Python `str.strip()` on a character list. -/
def stripChars (s : List Char) : List Char :=
  ((s.dropWhile isSpaceChar).reverse.dropWhile isSpaceChar).reverse

/-- The `(name or "").strip() or "NO_SKU"` defaulting step of `sanitize`. -/
def sanitizeBase (name : String) : List Char :=
  if stripChars name.toList = [] then "NO_SKU".toList else stripChars name.toList

/-- `sanitize`: strip, default to `"NO_SKU"`, keep alphanumerics and
`- _ . +`, truncate to 200 characters. -/
def sanitize (name : String) : String :=
  (((sanitizeBase name).filter
      (fun c => c.isAlphanum ∨ c = '-' ∨ c = '_' ∨ c = '.' ∨ c = '+')).take 200).asString

/-- One CSV row of `image_urls.csv`. -/
structure LedgerRow where
  item_id : String
  sku : String
  image_url : String
  source : String
  window_start : String
  window_end : String
deriving DecidableEq, Repr

/-- `sanitize(sku or item_id)`: the folder/file label. -/
def image_label (item_id sku : String) : String :=
  sanitize (if sku = "" then item_id else sku)

/-- Destination path for the `i`-th (1-based) of `count` image URLs of an
item: `IMAGES_DIR/label/label.jpg` when the item has a single URL, else
`IMAGES_DIR/label/label_i.jpg`. -/
def dest_path (label : String) (count i : Nat) : String :=
  "out_all/images_by_sku/" ++ label ++ "/" ++
    (if count = 1 then label ++ ".jpg" else label ++ "_" ++ toString i ++ ".jpg")

/-- The download targets registered for an item's URL list (the
`enumerate(urls, start=1)` loop): one `(url, destination)` pair per URL. -/
def download_targets (label : String) (urls : List String) : List (String × String) :=
  urls.enum.map (fun p => (p.2, dest_path label urls.length (p.1 + 1)))

/-- Crawl-engine state threaded through item processing: `seen_ids`,
`counters["items"]`, the ledger rows appended so far, and the download
targets registered so far.  (The download loop itself — existence check,
retries, `counters["images"]` — is modelled separately by `fetch` below.) -/
structure CrawlState where
  seen : List String
  items : Nat
  rows : List LedgerRow
  targets : List (String × String)
deriving DecidableEq, Repr

/-- The body of `process_window`'s `for item_id, sku, urls in iter_items(root)`
loop: skip empty ids; skip when `item_id in seen_ids and not urls`; otherwise
add to `seen_ids`, bump the item counter, append one CSV row per URL and
register one download target per URL.  (`if DOWNLOAD_IMAGES and urls` guards
the download loop; with `urls = []` that loop registers nothing, which the
unconditional append of the empty target list reproduces.) -/
def process_item_window (wt ws we : String) (st : CrawlState) (it : ListingItem) :
    CrawlState :=
  if it.item_id = "" then st
  else if it.item_id ∈ st.seen ∧ iter_item_urls it = [] then st
  else
    { seen := st.seen.insert it.item_id
      items := st.items + 1
      rows := st.rows ++ (iter_item_urls it).map
        (fun u => ⟨it.item_id, it.sku, u, wt, ws, we⟩)
      targets := st.targets ++
        download_targets (image_label it.item_id it.sku) (iter_item_urls it) }

/-- One page of `process_window`: fold the item step over the page's items. -/
def process_page (wt ws we : String) (st : CrawlState) (items : List ListingItem) :
    CrawlState :=
  items.foldl (process_item_window wt ws we) st

/-- The per-item body of `get_all_items` (initial scan): skip when
`not item_id or item_id in seen_ids`; otherwise the URLs are collected
*without* de-duplication, the item is recorded with source `"InitialScan"`
and window bounds `"ALL"`. -/
def process_item_initial (st : CrawlState) (it : ListingItem) : CrawlState :=
  if it.item_id = "" ∨ it.item_id ∈ st.seen then st
  else
    { seen := st.seen.insert it.item_id
      items := st.items + 1
      rows := st.rows ++ (collect_urls it).map
        (fun u => ⟨it.item_id, it.sku, u, "InitialScan", "ALL", "ALL"⟩)
      targets := st.targets ++
        download_targets (image_label it.item_id it.sku) (collect_urls it) }

/-- Everything the de-dup loop emits comes from the input, was not in the
accumulator, and is non-empty. -/
theorem mem_dedup_go (us : List String) (acc : List String) (v : String)
    (h : v ∈ dedup_go acc us) : v ∈ us ∧ v ∉ acc ∧ v ≠ "" := by
  induction us generalizing acc with
  | nil => simp [dedup_go] at h
  | cons u rest ih =>
    rw [dedup_go] at h
    split_ifs at h with hc
    · rcases List.mem_cons.mp h with h | h
      · subst h; exact ⟨List.mem_cons_self _ _, hc.2, hc.1⟩
      · obtain ⟨h1, h2, h3⟩ := ih _ h
        exact ⟨List.mem_cons_of_mem _ h1, fun hv => h2 (List.mem_cons_of_mem _ hv), h3⟩
    · obtain ⟨h1, h2, h3⟩ := ih _ h
      exact ⟨List.mem_cons_of_mem _ h1, h2, h3⟩

/-- The de-dup loop emits no duplicates. -/
theorem dedup_go_nodup (us : List String) (acc : List String) :
    (dedup_go acc us).Nodup := by
  induction us generalizing acc with
  | nil => simp [dedup_go]
  | cons u rest ih =>
    rw [dedup_go]
    split_ifs with hc
    · refine List.nodup_cons.mpr ⟨fun hmem => ?_, ih _⟩
      exact (mem_dedup_go _ _ _ hmem).2.1 (List.mem_cons_self _ _)
    · exact ih _

/-- The de-dup loop preserves insertion order (its output is a sublist of its
input). -/
theorem dedup_go_sublist (us : List String) (acc : List String) :
    List.Sublist (dedup_go acc us) us := by
  induction us generalizing acc with
  | nil => simp [dedup_go]
  | cons u rest ih =>
    rw [dedup_go]
    split_ifs with hc
    · exact List.Sublist.cons₂ _ (ih _)
    · exact List.Sublist.cons _ (ih _)

/-- The de-dup loop keeps every non-empty URL not already accumulated. -/
theorem mem_dedup_go_of_mem (us : List String) (acc : List String) (v : String)
    (hv : v ∈ us) (hne : v ≠ "") : v ∈ dedup_go acc us ∨ v ∈ acc := by
  induction us generalizing acc with
  | nil => simp at hv
  | cons u rest ih =>
    rw [dedup_go]
    split_ifs with hc
    · rcases List.mem_cons.mp hv with h | h
      · subst h; exact Or.inl (List.mem_cons_self _ _)
      · rcases ih _ h with h' | h'
        · exact Or.inl (List.mem_cons_of_mem _ h')
        · rcases List.mem_cons.mp h' with h'' | h''
          · subst h''; exact Or.inl (List.mem_cons_self _ _)
          · exact Or.inr h''
    · rcases List.mem_cons.mp hv with h | h
      · subst h
        push_neg at hc
        exact Or.inr (hc hne)
      · exact ih _ h

/-- The registered download targets are in bijection with the URL list: the
first components of `download_targets label urls` are exactly `urls`. -/
theorem download_targets_map_fst (label : String) (urls : List String) :
    (download_targets label urls).map Prod.fst = urls := by
  unfold download_targets
  rw [List.map_map]
  exact List.enum_map_snd urls

/-- C3: per-item rules of the windowed pass.  An item with an empty id is
skipped; a seen item carrying no image URLs this time is skipped; every other
item is inserted into the seen-set, increments the item counter, and produces
exactly one ledger row and one download target per distinct image URL of the
item — the URL list is duplicate-free, keeps the source order, and retains
every non-empty collected URL. -/
theorem c3_process_window_item_rules
    (wt ws we : String) (st : CrawlState) (it : ListingItem) :
    (it.item_id = "" → process_item_window wt ws we st it = st) ∧
    (it.item_id ∈ st.seen → iter_item_urls it = [] →
      process_item_window wt ws we st it = st) ∧
    (it.item_id ≠ "" → (it.item_id ∉ st.seen ∨ iter_item_urls it ≠ []) →
      process_item_window wt ws we st it =
        { seen := st.seen.insert it.item_id
          items := st.items + 1
          rows := st.rows ++ (iter_item_urls it).map
            (fun u => ⟨it.item_id, it.sku, u, wt, ws, we⟩)
          targets := st.targets ++
            download_targets (image_label it.item_id it.sku) (iter_item_urls it) }) ∧
    (iter_item_urls it).Nodup ∧
    List.Sublist (iter_item_urls it) (collect_urls it) ∧
    (∀ u ∈ collect_urls it, u ≠ "" → u ∈ iter_item_urls it) ∧
    (download_targets (image_label it.item_id it.sku) (iter_item_urls it)).map Prod.fst
      = iter_item_urls it := by
  refine ⟨?_, ?_, ?_, ?_, ?_, ?_, ?_⟩
  · intro h
    unfold process_item_window
    simp [h]
  · intro h1 h2
    unfold process_item_window
    split_ifs with hid hseen
    · rfl
    · rfl
    · exact absurd ⟨h1, h2⟩ hseen
  · intro h1 h2
    unfold process_item_window
    split_ifs with hid hseen
    · exact absurd hid h1
    · rcases h2 with h2 | h2
      · exact absurd hseen.1 h2
      · exact absurd hseen.2 h2
    · rfl
  · exact dedup_go_nodup _ _
  · exact dedup_go_sublist _ _
  · intro u hu hne
    rcases mem_dedup_go_of_mem _ [] u hu hne with h | h
    · exact h
    · simp at h
  · exact download_targets_map_fst _ _

/-- Witness for C3 at a concrete item with a duplicated picture URL and a
gallery URL: the two distinct URLs produce exactly two rows and two targets. -/
theorem c3_process_window_item_rules_witness :
    process_item_window "StartTime" "2024-01-01T00:00:00.000Z"
        "2024-01-31T23:59:59.000Z" ⟨[], 0, [], []⟩
        ⟨"42", "SK", ["u1", "u1"], "u2"⟩ =
      { seen := ["42"], items := 1,
        rows := [⟨"42", "SK", "u1", "StartTime", "2024-01-01T00:00:00.000Z",
                   "2024-01-31T23:59:59.000Z"⟩,
                 ⟨"42", "SK", "u2", "StartTime", "2024-01-01T00:00:00.000Z",
                   "2024-01-31T23:59:59.000Z"⟩],
        targets := [("u1", "out_all/images_by_sku/SK/SK_1.jpg"),
                    ("u2", "out_all/images_by_sku/SK/SK_2.jpg")] } := by
  have h := (c3_process_window_item_rules "StartTime" "2024-01-01T00:00:00.000Z"
    "2024-01-31T23:59:59.000Z" ⟨[], 0, [], []⟩
    ⟨"42", "SK", ["u1", "u1"], "u2"⟩).2.2.1 (by decide) (Or.inl (by decide))
  rw [h]
  decide

/-- The concrete item used in the C1 counterexample: one picture URL, no
gallery URL. -/
def c1Item : ListingItem := ⟨"100", "SKU1", ["u1"], ""⟩

/-- C1 counterexample: the item `"100"` appears in a `StartTime` window and
again in a later `ModTime` window carrying exactly the same (non-empty) image
URL list `["u1"]` both times.  The skip test `item_id in seen_ids and not
urls` does not fire on the second occurrence (its URL list is non-empty), so
the second occurrence appends a *duplicate* ledger row: the (item, URL) pair
is recorded twice, not once. -/
theorem c1_counterexample_duplicate_rows :
    (process_page "StartTime" "2024-01-01T00:00:00.000Z"
        "2024-01-31T23:59:59.000Z" ⟨[], 0, [], []⟩ [c1Item]).rows.map
      (fun r => (r.item_id, r.image_url)) = [("100", "u1")] ∧
    (process_page "ModTime" "2024-02-01T00:00:00.000Z" "2024-02-29T23:59:59.000Z"
        (process_page "StartTime" "2024-01-01T00:00:00.000Z"
          "2024-01-31T23:59:59.000Z" ⟨[], 0, [], []⟩ [c1Item]) [c1Item]).rows.map
      (fun r => (r.item_id, r.image_url)) = [("100", "u1"), ("100", "u1")] := by
  constructor
  · decide
  · decide

/-- C1 (amended): a seen item's later reappearance contributes zero new
ledger rows exactly when it then carries no image URLs at all; a seen item
reappearing with a non-empty URL list — even one identical to its first
appearance — is processed again and appends one further ledger row per URL. -/
theorem c1_seen_item_reappearance
    (wt ws we : String) (st : CrawlState) (it : ListingItem) :
    (it.item_id ∈ st.seen → iter_item_urls it = [] →
      process_item_window wt ws we st it = st) ∧
    (it.item_id ≠ "" → it.item_id ∈ st.seen → iter_item_urls it ≠ [] →
      (process_item_window wt ws we st it).rows =
        st.rows ++ (iter_item_urls it).map
          (fun u => ⟨it.item_id, it.sku, u, wt, ws, we⟩)) := by
  constructor
  · intro h1 h2
    unfold process_item_window
    split_ifs with hid hseen
    · rfl
    · rfl
    · exact absurd ⟨h1, h2⟩ hseen
  · intro h1 h2 h3
    unfold process_item_window
    split_ifs with hid hseen
    · exact absurd hid h1
    · exact absurd hseen.2 h3
    · rfl

/-- Witness for C1 (amended) at the counterexample's own state: after the
`StartTime` pass the item is seen; its `ModTime` reappearance with the same
URL appends one more row. -/
theorem c1_seen_item_reappearance_witness :
    (process_item_window "ModTime" "ws2" "we2"
      ⟨["100"], 1, [⟨"100", "SKU1", "u1", "StartTime", "ws1", "we1"⟩],
        [("u1", "out_all/images_by_sku/SKU1/SKU1.jpg")]⟩ c1Item).rows =
      [⟨"100", "SKU1", "u1", "StartTime", "ws1", "we1"⟩,
       ⟨"100", "SKU1", "u1", "ModTime", "ws2", "we2"⟩] := by
  have h := (c1_seen_item_reappearance "ModTime" "ws2" "we2"
    ⟨["100"], 1, [⟨"100", "SKU1", "u1", "StartTime", "ws1", "we1"⟩],
      [("u1", "out_all/images_by_sku/SKU1/SKU1.jpg")]⟩ c1Item).2
    (by decide) (by decide) (by decide)
  rw [h]
  decide

/-- C10: the initial unbounded scan (`get_all_items`) skips every
already-seen item entirely — state unchanged, no rows, no downloads — even
when the item carries image URLs; the windowed passes are laxer and still
process a seen item that carries URLs (counter bumped, rows appended). -/
theorem c10_initial_scan_skips_seen_items
    (st : CrawlState) (it : ListingItem) :
    (it.item_id ∈ st.seen → process_item_initial st it = st) ∧
    (∀ wt ws we, it.item_id ≠ "" → it.item_id ∈ st.seen → iter_item_urls it ≠ [] →
      (process_item_window wt ws we st it).items = st.items + 1 ∧
      (process_item_window wt ws we st it).rows =
        st.rows ++ (iter_item_urls it).map
          (fun u => ⟨it.item_id, it.sku, u, wt, ws, we⟩)) := by
  constructor
  · intro h
    unfold process_item_initial
    simp [h]
  · intro wt ws we h1 h2 h3
    unfold process_item_window
    split_ifs with hid hseen
    · exact absurd hid h1
    · exact absurd hseen.2 h3
    · exact ⟨rfl, rfl⟩

/-- Witness for C10: a seen item with a URL is a no-op for the initial scan
but appends a row in a windowed pass. -/
theorem c10_initial_scan_skips_seen_items_witness :
    process_item_initial ⟨["100"], 1, [], []⟩ c1Item = ⟨["100"], 1, [], []⟩ ∧
    (process_item_window "EndTime" "ws" "we" ⟨["100"], 1, [], []⟩ c1Item).items = 2 := by
  constructor
  · exact (c10_initial_scan_skips_seen_items ⟨["100"], 1, [], []⟩ c1Item).1 (by decide)
  · have h := ((c10_initial_scan_skips_seen_items ⟨["100"], 1, [], []⟩ c1Item).2
      "EndTime" "ws" "we" (by decide) (by decide) (by decide)).1
    rw [h]

/-! ### Trading calls and the auth-retry protocol

Two engines issue Trading-API POSTs.

`ebay_all_listings_auto_refresh.py` (`trading_call`): post with the module's
current token; on HTTP 401 (when a refresh token is configured) call
`refresh_access_token()` and re-post once; then `raise_for_status()`; parse
the `Ack`; on a non-success `Ack` whose error messages contain
"Expired IAF token" (again only with a refresh token) refresh and re-post
once more, succeeding or raising on that second response's `Ack`.
`refresh_access_token()` itself raises on failure, which is equally terminal
for the page; the model covers the runs in which each performed refresh
succeeds, which is the regime all the auth-retry claims quantify over.

`ebay_all_listings_by_sku.py` (`trading_call`): obtain a token from
`ensure_access_token()`, post; if the status is 401 or the body contains
"Invalid IAF token", call `ensure_access_token()` again — which refreshes
only when the cached token is stale by `access_meta.json` — and re-post once
with whatever token that returned; then `raise_for_status()` and the `Ack`
check (no second app-level retry). -/

inductive Ack
  | success
  | warning
  | failure
deriving DecidableEq, Repr

/-- One Trading-API HTTP response, as far as the retry logic inspects it:
HTTP status; parsed `Ack`; whether an `Errors` message contains
"Expired IAF token" (auto-refresh engine's app-level test); whether the raw
text contains "Invalid IAF token" (by-sku engine's test). -/
structure TResp where
  status : Nat
  ack : Ack
  expiredMsg : Bool
  invalidMsg : Bool
deriving DecidableEq, Repr

/-- `ack in ("Success", "Warning")`. -/
def ackOk (a : Ack) : Bool := a = Ack.success ∨ a = Ack.warning

/-- `requests.Response.raise_for_status()`: raises for 4xx/5xx statuses. -/
def raise_for_status (r : TResp) : Except String TResp :=
  if 400 ≤ r.status then .error "HTTPError" else .ok r

/-- Tail of the auto-refresh `trading_call` after the 401 stage: `r` is the
response in hand, `n` requests and `k` refreshes have happened.  Runs
`raise_for_status`, the `Ack` check, and the app-level expired-token
refresh-and-retry. -/
def trading_call_auto_refresh_tail (hasRefreshToken : Bool) (resp : Nat → TResp)
    (r : TResp) (n k : Nat) : Except String TResp × Nat × Nat :=
  if 400 ≤ r.status then (.error "HTTPError", n, k)
  else if ackOk r.ack then (.ok r, n, k)
  else if r.expiredMsg ∧ hasRefreshToken then
    match raise_for_status (resp (n + 1)) with
    | .error e => (.error e, n + 1, k + 1)
    | .ok r2 =>
      if ackOk r2.ack then (.ok r2, n + 1, k + 1)
      else (.error "failed after refresh", n + 1, k + 1)
  else (.error "Ack failure", n, k)

/-- The auto-refresh engine's `trading_call`: `resp i` is the response to the
`i`-th POST of this page; the result carries the parsed response (or raised
error), the number of POSTs, and the number of refresh calls. -/
def trading_call_auto_refresh (hasRefreshToken : Bool) (resp : Nat → TResp) :
    Except String TResp × Nat × Nat :=
  if (resp 1).status = 401 ∧ hasRefreshToken then
    trading_call_auto_refresh_tail hasRefreshToken resp (resp 2) 2 1
  else
    trading_call_auto_refresh_tail hasRefreshToken resp (resp 1) 1 0

/-- `raise_for_status` followed by the `Ack` check (the by-sku engine raises
a `RuntimeError` on any non-success `Ack`, with no further retry). -/
def trading_ack_check (r : TResp) : Except String TResp :=
  match raise_for_status r with
  | .error e => .error e
  | .ok r' => if ackOk r'.ack then .ok r' else .error "Ack failure"

/-- The by-sku engine's `trading_call`: result, number of POSTs, number of
refresh calls, and the tokens attached to the POSTs in order. -/
def trading_call_by_sku (w : AuthWorld) (resp : Nat → TResp) :
    Except String TResp × Nat × Nat × List String :=
  match ensure_access_token w with
  | (.error e, k0) => (.error e, 0, k0, [])
  | (.ok (t1, w1), k0) =>
    if (resp 1).status = 401 ∨ (resp 1).invalidMsg = true then
      match ensure_access_token w1 with
      | (.error e, k1) => (.error e, 1, k0 + k1, [t1])
      | (.ok (t2, _), k1) => (trading_ack_check (resp 2), 2, k0 + k1, [t1, t2])
    else (trading_ack_check (resp 1), 1, k0, [t1])

/-- C4 counterexample: in the by-sku engine, with a cached token `"tokA"`
that is fresh by its stored metadata (but rejected by the server with a 401),
the page's auth failure is followed by a retry that performs *zero* token
refreshes and reuses the very same token — not "exactly 1 refresh call" with
"a freshly obtained token" as claimed.  (World: metadata `(0, 10000)` at time
`0`; a refresh token is configured and would succeed with `"tokB"`.) -/
theorem c4_counterexample_retry_without_refresh :
    trading_call_by_sku ⟨some "tokA", some (0, 10000), some "rt", 0, some ("tokB", 7200)⟩
        (fun n => if n = 1 then ⟨401, Ack.failure, false, false⟩
                  else ⟨200, Ack.success, false, false⟩) =
      (.ok ⟨200, Ack.success, false, false⟩, 2, 0, ["tokA", "tokA"]) := by
  rfl

/-- C4 (amended): in the auto-refresh engine (refresh token configured, each
performed refresh succeeding) a single auth failure — transport 401 or
app-level expired-token — leads to exactly one refresh and one retry of the
identical request, hence 2 requests and 1 refresh for the page, returning the
retry's parsed response; a 401 retried into another 401, or an app-level
expired failure retried into another `Ack` failure, is terminal for the page
at 2 requests and 1 refresh.  In the by-sku engine the retry re-invokes the
token supplier, which refreshes only when the cached token is stale by its
metadata: with fresh metadata a single auth failure yields 2 requests,
0 refresh calls, and the same token on both requests. -/
theorem c4_auth_retry_protocol (resp : Nat → TResp) (w : AuthWorld) (t : String) :
    ((resp 1).status = 401 → (resp 2).status < 400 → ackOk (resp 2).ack = true →
      trading_call_auto_refresh true resp = (.ok (resp 2), 2, 1)) ∧
    ((resp 1).status < 400 → ackOk (resp 1).ack = false → (resp 1).expiredMsg = true →
      (resp 2).status < 400 → ackOk (resp 2).ack = true →
      trading_call_auto_refresh true resp = (.ok (resp 2), 2, 1)) ∧
    ((resp 1).status = 401 → (resp 2).status = 401 →
      trading_call_auto_refresh true resp = (.error "HTTPError", 2, 1)) ∧
    ((resp 1).status < 400 → ackOk (resp 1).ack = false → (resp 1).expiredMsg = true →
      (resp 2).status < 400 → ackOk (resp 2).ack = false →
      trading_call_auto_refresh true resp = (.error "failed after refresh", 2, 1)) ∧
    (freshCached w → w.accessFile = some t →
      ((resp 1).status = 401 ∨ (resp 1).invalidMsg = true) →
      (resp 2).status < 400 → ackOk (resp 2).ack = true →
      trading_call_by_sku w resp = (.ok (resp 2), 2, 0, [t, t])) := by
  refine ⟨?_, ?_, ?_, ?_, ?_⟩
  · intro h1 h2 h3
    unfold trading_call_auto_refresh trading_call_auto_refresh_tail
    simp [h1, h3]
    omega
  · intro h1 h2 h3 h4 h5
    unfold trading_call_auto_refresh trading_call_auto_refresh_tail raise_for_status
    have hn1 : ¬ ((resp 1).status = 401) := by omega
    have hn400 : ¬ (400 ≤ (resp 1).status) := by omega
    have hn400b : ¬ (400 ≤ (resp 2).status) := by omega
    simp [hn1, hn400, hn400b, h2, h3, h5]
  · intro h1 h2
    unfold trading_call_auto_refresh trading_call_auto_refresh_tail
    simp [h1, h2]
  · intro h1 h2 h3 h4 h5
    unfold trading_call_auto_refresh trading_call_auto_refresh_tail raise_for_status
    have hn1 : ¬ ((resp 1).status = 401) := by omega
    have hn400 : ¬ (400 ≤ (resp 1).status) := by omega
    have hn400b : ¬ (400 ≤ (resp 2).status) := by omega
    simp [hn1, hn400, hn400b, h2, h3, h5]
  · intro hfresh haf hauth h2 h3
    obtain ⟨hsome, hfcheck⟩ := hfresh
    unfold trading_call_by_sku ensure_access_token trading_ack_check raise_for_status
    have hn400b : ¬ (400 ≤ (resp 2).status) := by omega
    simp [haf, hfcheck, hauth, hn400b, h3]

/-- Witness for C4 (amended): a concrete 401-then-success trace through the
auto-refresh engine gives 2 requests and 1 refresh. -/
theorem c4_auth_retry_protocol_witness :
    trading_call_auto_refresh true
        (fun n => if n = 1 then ⟨401, Ack.failure, false, false⟩
                  else ⟨200, Ack.success, false, false⟩) =
      (.ok ⟨200, Ack.success, false, false⟩, 2, 1) := by
  have h := (c4_auth_retry_protocol
    (fun n => if n = 1 then ⟨401, Ack.failure, false, false⟩
              else ⟨200, Ack.success, false, false⟩)
    ⟨none, none, none, 0, none⟩ "t").1 (by decide) (by decide) (by decide)
  rw [h]
  rfl

/-! ### Image downloads (`download_image`) and the idempotent fetch

`download_image(url, dest)` loops `for attempt in range(1, DOWNLOAD_RETRIES+1)`:
issue `requests.get`; when the response is `r.ok and r.content`, write the
body to `dest` and return `True`; a raised exception is swallowed; after
every unaccepted attempt (including the last) sleep `base * attempt` seconds
(base 1.2 s in `ebay_all_listings_by_sku.py`, 1.5 s in
`eBay_image_backup.py`); return `False` when the loop ends.  The caller in
`process_window` first checks `if dest.exists(): continue` — together these
form the idempotent per-URL fetch.  The network is an oracle from the attempt
number to `some` response or `none` for a raised exception. -/

/-- One HTTP GET response: `r.ok` and the body `r.content`. -/
structure DResp where
  ok : Bool
  body : String
deriving DecidableEq, Repr

/-- The acceptance test `if r.ok and r.content`; a raised exception (`none`)
is never accepted. -/
def accepted : Option DResp → Bool
  | none => false
  | some r => r.ok && !(r.body == "")

def DOWNLOAD_RETRIES : Nat := 3

/-- The retry loop body, started at attempt number `attempt` with `rem`
iterations left: returns (success, number of network attempts made, the
sleeps performed in seconds, in order). -/
def download_attempts (base : ℚ) (oracle : Nat → Option DResp) :
    Nat → Nat → Bool × Nat × List ℚ
  | _, 0 => (false, 0, [])
  | attempt, rem + 1 =>
    if accepted (oracle attempt) then (true, 1, [])
    else
      match download_attempts base oracle (attempt + 1) rem with
      | (s, n, ds) => (s, n + 1, base * (attempt : ℚ) :: ds)

/-- `download_image` of `ebay_all_listings_by_sku.py`: 3 attempts, linear
backoff `1.2 * attempt`. -/
def download_image (oracle : Nat → Option DResp) : Bool × Nat × List ℚ :=
  download_attempts (6 / 5) oracle 1 DOWNLOAD_RETRIES

/-- `download_image` of `eBay_image_backup.py`: 3 attempts, linear backoff
`1.5 * attempt`. -/
def download_image_backup (oracle : Nat → Option DResp) : Bool × Nat × List ℚ :=
  download_attempts (3 / 2) oracle 1 DOWNLOAD_RETRIES

/-- Unfolding equation for one loop iteration. -/
theorem download_attempts_succ (base : ℚ) (oracle : Nat → Option DResp)
    (attempt rem : Nat) :
    download_attempts base oracle attempt (rem + 1) =
      if accepted (oracle attempt) then (true, 1, [])
      else
        match download_attempts base oracle (attempt + 1) rem with
        | (s, n, ds) => (s, n + 1, base * (attempt : ℚ) :: ds) := rfl

/-- When every attempt in the remaining budget is rejected, the loop makes
all its attempts, fails, and sleeps `base * attempt` after each attempt. -/
theorem download_attempts_all_fail (base : ℚ) (oracle : Nat → Option DResp) :
    ∀ rem attempt, (∀ k, k < rem → accepted (oracle (attempt + k)) = false) →
      download_attempts base oracle attempt rem =
        (false, rem, (List.range' attempt rem).map (fun a : Nat => base * (a : ℚ))) := by
  intro rem
  induction rem with
  | zero => intro attempt _; rfl
  | succ n ih =>
    intro attempt h
    rw [download_attempts_succ]
    have h0 : accepted (oracle attempt) = false := by
      simpa using h 0 (Nat.succ_pos n)
    rw [h0]
    simp only [Bool.false_eq_true, if_false]
    rw [ih (attempt + 1) (by
      intro k hk
      have e : attempt + 1 + k = attempt + (k + 1) := by omega
      rw [e]
      exact h (k + 1) (by omega))]
    rw [List.range'_succ, List.map_cons]

/-- The per-URL fetch as the crawl performs it: `if dest.exists(): continue`
(immediate success, no network call) else run `download_image`, which writes
`dest` exactly when it succeeds (`dest.write_bytes` on the accepted attempt).
Returns (success, file system afterwards, network calls made). -/
def fetch (oracle : Nat → Option DResp) (fs : List String) (dest : String) :
    Bool × List String × Nat :=
  if dest ∈ fs then (true, fs, 0)
  else
    match download_image oracle with
    | (s, n, _) => (s, if s then dest :: fs else fs, n)

/-- C6: fetching is idempotent on the destination path.  If the destination
already exists the fetch returns success immediately with zero network calls;
and when the destination is new and the first attempt is accepted, the first
fetch makes exactly one network call and creates the file, after which the
second fetch of the same pair is a no-op success with zero network calls —
one network call across both fetches. -/
theorem c6_fetch_idempotent (oracle : Nat → Option DResp) (fs : List String)
    (dest : String) :
    (dest ∈ fs → fetch oracle fs dest = (true, fs, 0)) ∧
    (dest ∉ fs → accepted (oracle 1) = true →
      fetch oracle fs dest = (true, dest :: fs, 1) ∧
      fetch oracle (dest :: fs) dest = (true, dest :: fs, 0)) := by
  constructor
  · intro h
    unfold fetch
    simp [h]
  · intro h hacc
    constructor
    · unfold fetch download_image DOWNLOAD_RETRIES download_attempts
      simp [h, hacc]
    · unfold fetch
      simp

/-- Witness for C6 at a concrete always-succeeding oracle and an empty file
system: one network call for the first fetch, none for the second. -/
theorem c6_fetch_idempotent_witness :
    fetch (fun _ => some ⟨true, "bytes"⟩) [] "out_all/images_by_sku/SK/SK.jpg" =
      (true, ["out_all/images_by_sku/SK/SK.jpg"], 1) ∧
    fetch (fun _ => some ⟨true, "bytes"⟩) ["out_all/images_by_sku/SK/SK.jpg"]
        "out_all/images_by_sku/SK/SK.jpg" =
      (true, ["out_all/images_by_sku/SK/SK.jpg"], 0) :=
  (c6_fetch_idempotent (fun _ => some ⟨true, "bytes"⟩) []
    "out_all/images_by_sku/SK/SK.jpg").2 (by decide) (by decide)

/-- C7: a URL whose every attempt fails (non-success status, empty body, or a
raised exception) is attempted exactly `DOWNLOAD_RETRIES = 3` times and
reported as failure, with strictly increasing delays `1.2, 2.4, 3.6` seconds
between attempts; a response is accepted exactly when it has a success status
and a non-empty body, and any successful run has an accepted attempt within
the budget. -/
theorem c7_download_retry_budget (oracle : Nat → Option DResp)
    (hfail : ∀ a, accepted (oracle a) = false) :
    download_image oracle = (false, DOWNLOAD_RETRIES, [6 / 5, 12 / 5, 18 / 5]) ∧
    List.Chain' (· < ·) [(6 : ℚ) / 5, 12 / 5, 18 / 5] ∧
    (∀ r : DResp, accepted (some r) = true ↔ (r.ok = true ∧ r.body ≠ "")) ∧
    (∀ o : Nat → Option DResp, (download_image o).1 = true →
      ∃ a, 1 ≤ a ∧ a ≤ DOWNLOAD_RETRIES ∧ accepted (o a) = true) := by
  refine ⟨?_, ?_, ?_, ?_⟩
  · unfold download_image DOWNLOAD_RETRIES
    rw [download_attempts_all_fail (6 / 5) oracle 3 1 (fun k _ => hfail (1 + k))]
    rw [show List.range' 1 3 = [1, 2, 3] by decide]
    norm_num
  · simp [List.Chain']
    norm_num
  · intro r
    unfold accepted
    simp
  · intro o hs
    by_cases h1 : accepted (o 1) = true
    · exact ⟨1, by decide, by decide, h1⟩
    · by_cases h2 : accepted (o 2) = true
      · exact ⟨2, by decide, by decide, h2⟩
      · by_cases h3 : accepted (o 3) = true
        · exact ⟨3, by decide, by decide, h3⟩
        · exfalso
          have hall : ∀ k, k < 3 → accepted (o (1 + k)) = false := by
            intro k hk
            interval_cases k
            · simpa using h1
            · simpa using h2
            · simpa using h3
          unfold download_image DOWNLOAD_RETRIES at hs
          rw [download_attempts_all_fail (6 / 5) o 3 1 hall] at hs
          simp at hs

/-- Witness for C7: the oracle that always raises fails after exactly 3
attempts with delays 1.2 s, 2.4 s, 3.6 s. -/
theorem c7_download_retry_budget_witness :
    download_image (fun _ => none) = (false, DOWNLOAD_RETRIES, [6 / 5, 12 / 5, 18 / 5]) :=
  (c7_download_retry_budget (fun _ => none) (fun _ => rfl)).1
